import Mathlib

/-!
Verification development for the Afpex/AGC-Automated-Research data-collection
core: a shallow embedding of `src/data_collection/scraper.py` (crawl engine,
content extraction, date parsing) and `src/data_collection/data_validator.py`
(record validation and cleaning), with theorems about the claims of the
specification.
-/

namespace AGC

/-! ## String helpers (Python `str.strip`, `re.sub(r"\s+", " ", ·)`) -/

def isWsChar (c : Char) : Bool :=
  c = ' ' || c = '\t' || c = '\n' || c = '\x0d' || c = '\x0b' || c = '\x0c'

/-- Python `str.strip()` on a character list. -/
def stripWs (l : List Char) : List Char :=
  ((l.dropWhile isWsChar).reverse.dropWhile isWsChar).reverse

/-- Collapse every whitespace run to a single space;
`prevWs` records whether the previous character was whitespace. -/
def collapseWsAux : Bool → List Char → List Char
  | _, [] => []
  | prevWs, c :: cs =>
    if isWsChar c then
      if prevWs then collapseWsAux true cs else ' ' :: collapseWsAux true cs
    else c :: collapseWsAux false cs

/-- `re.sub(r"\s+", " ", s).strip()`, the normalization used by the extractor. -/
def normWs (s : String) : String :=
  ⟨stripWs (collapseWsAux false s.toList)⟩

/-! ## Python `datetime.strptime` for the formats used by the repository

`_strptime` compiles a format string to a regex (IGNORECASE); each directive
has a fixed sub-pattern, whitespace in the format matches one-or-more
whitespace characters, and the whole input must be consumed.  The resulting
fields are then passed to the `datetime` constructor, which enforces the
calendar bounds (day within month, second below 60, year at least 1). -/

def digitVal (c : Char) : Option Nat :=
  if c.isDigit then some (c.toNat - 48) else none

/-- One-or-two digit numeric field: a two-digit read is kept when `valid2`
accepts its value (mirroring patterns such as `3[01]|[12]\d|0[1-9]|[1-9]`),
otherwise a single digit accepted by `valid1` is consumed. -/
def parseTwoOrOne (valid2 valid1 : Nat → Bool) :
    List Char → Option (Nat × List Char)
  | a :: b :: rest =>
    match digitVal a, digitVal b with
    | some x, some y =>
      if valid2 (10 * x + y) then some (10 * x + y, rest)
      else if valid1 x then some (x, b :: rest) else none
    | some x, none => if valid1 x then some (x, b :: rest) else none
    | none, _ => none
  | [a] => (digitVal a).bind fun x => if valid1 x then some (x, []) else none
  | [] => none

/-- `%Y`: exactly four digits (`\d\d\d\d`). -/
def parseYear4 : List Char → Option (Nat × List Char)
  | a :: b :: c :: d :: rest => do
    let x ← digitVal a
    let y ← digitVal b
    let z ← digitVal c
    let w ← digitVal d
    pure (1000 * x + 100 * y + 10 * z + w, rest)
  | _ => none

/-- `%f`: one to six digits, read greedily. -/
def parseFrac (cs : List Char) : Option (Nat × List Char) :=
  go 6 0 0 cs
where
  go : Nat → Nat → Nat → List Char → Option (Nat × List Char)
    | 0, count, acc, cs => if count = 0 then none else some (acc, cs)
    | budget + 1, count, acc, cs =>
      match cs with
      | [] => if count = 0 then none else some (acc, [])
      | c :: rest =>
        match digitVal c with
        | some v => go budget (count + 1) (acc * 10 + v) rest
        | none => if count = 0 then none else some (acc, c :: rest)

def monthNamesFull : List (List Char) :=
  ["january".toList, "february".toList, "march".toList, "april".toList,
   "may".toList, "june".toList, "july".toList, "august".toList,
   "september".toList, "october".toList, "november".toList, "december".toList]

def monthNamesAbbr : List (List Char) :=
  ["jan".toList, "feb".toList, "mar".toList, "apr".toList, "may".toList,
   "jun".toList, "jul".toList, "aug".toList, "sep".toList, "oct".toList,
   "nov".toList, "dec".toList]

/-- Case-insensitive match of `pat` (already lowercase) against the head of
the input; returns the rest of the input on success. -/
def matchCI : List Char → List Char → Option (List Char)
  | [], cs => some cs
  | _ :: _, [] => none
  | p :: ps, c :: cs => if c.toLower = p then matchCI ps cs else none

/-- Try month names in order; result is the 1-based month number. -/
def parseMonthName (names : List (List Char)) (cs : List Char) :
    Option (Nat × List Char) :=
  go 1 names
where
  go (i : Nat) : List (List Char) → Option (Nat × List Char)
    | [] => none
    | n :: ns =>
      match matchCI n cs with
      | some rest => some (i, rest)
      | none => go (i + 1) ns

/-- Directives occurring in the repository's format strings.  `ws` is the
one-or-more-whitespace pattern that `_strptime` substitutes for literal
whitespace in a format. -/
inductive Dir where
  | lit (c : Char)
  | ws
  | Y | Mo | D | H | Mi | S | F | B | Bshort
deriving DecidableEq, Repr

/-- Fields recovered by a parse, with `datetime.strptime` defaults
(1900-01-01 00:00:00). -/
structure Raw where
  y : Nat := 1900
  mo : Nat := 1
  d : Nat := 1
  h : Nat := 0
  mi : Nat := 0
  s : Nat := 0
  f : Nat := 0
deriving DecidableEq, Repr

def parseDir : Dir → Raw → List Char → Option (Raw × List Char)
  | .lit c, r, x :: cs => if x.toLower = c.toLower then some (r, cs) else none
  | .lit _, _, [] => none
  | .ws, r, c :: cs =>
    if isWsChar c then some (r, cs.dropWhile isWsChar) else none
  | .ws, _, [] => none
  | .Y, r, cs => (parseYear4 cs).map fun (v, rest) => ({ r with y := v }, rest)
  | .Mo, r, cs =>
    (parseTwoOrOne (fun v => 1 ≤ v && v ≤ 12) (fun v => 1 ≤ v && v ≤ 9) cs).map
      fun (v, rest) => ({ r with mo := v }, rest)
  | .D, r, cs =>
    (parseTwoOrOne (fun v => 1 ≤ v && v ≤ 31) (fun v => 1 ≤ v && v ≤ 9) cs).map
      fun (v, rest) => ({ r with d := v }, rest)
  | .H, r, cs =>
    (parseTwoOrOne (fun v => v ≤ 23) (fun _ => true) cs).map
      fun (v, rest) => ({ r with h := v }, rest)
  | .Mi, r, cs =>
    (parseTwoOrOne (fun v => v ≤ 59) (fun _ => true) cs).map
      fun (v, rest) => ({ r with mi := v }, rest)
  | .S, r, cs =>
    (parseTwoOrOne (fun v => v ≤ 61) (fun _ => true) cs).map
      fun (v, rest) => ({ r with s := v }, rest)
  | .F, r, cs =>
    (parseFrac cs).map fun (v, rest) => ({ r with f := v }, rest)
  | .B, r, cs =>
    (parseMonthName monthNamesFull cs).map
      fun (v, rest) => ({ r with mo := v }, rest)
  | .Bshort, r, cs =>
    (parseMonthName monthNamesAbbr cs).map
      fun (v, rest) => ({ r with mo := v }, rest)

/-- Run a whole format; the input must be consumed entirely
(`unconverted data remains` otherwise). -/
def runDirs : List Dir → Raw → List Char → Option Raw
  | [], r, [] => some r
  | [], _, _ :: _ => none
  | dir :: ds, r, cs =>
    match parseDir dir r cs with
    | some (r', cs') => runDirs ds r' cs'
    | none => none

structure PyDateTime where
  year : Nat
  month : Nat
  day : Nat
  hour : Nat
  minute : Nat
  second : Nat
  microsecond : Nat
deriving DecidableEq, Repr

def isLeapYear (y : Nat) : Bool :=
  y % 4 = 0 && (y % 100 ≠ 0 || y % 400 = 0)

def daysInMonth (y m : Nat) : Nat :=
  if m = 2 then (if isLeapYear y then 29 else 28)
  else if m = 4 || m = 6 || m = 9 || m = 11 then 30
  else 31

/-- The `datetime(...)` constructor's range checks. -/
def mkPyDateTime (r : Raw) : Option PyDateTime :=
  if 1 ≤ r.y && r.y ≤ 9999 && 1 ≤ r.mo && r.mo ≤ 12 &&
     1 ≤ r.d && r.d ≤ daysInMonth r.y r.mo &&
     r.h ≤ 23 && r.mi ≤ 59 && r.s ≤ 59 && r.f ≤ 999999 then
    some ⟨r.y, r.mo, r.d, r.h, r.mi, r.s, r.f⟩
  else none

/-- `datetime.strptime(s, fmt)` for a format given as a directive list. -/
def strptime (fmt : List Dir) (s : String) : Option PyDateTime :=
  (runDirs fmt {} s.toList).bind mkPyDateTime

/-! The eight formats tried by `TransportScraper._extract_date`, in source
order, and the strict format of `DataValidator`. -/

def fmtYmdDash : List Dir := [.Y, .lit '-', .Mo, .lit '-', .D]
def fmtYmdSlash : List Dir := [.Y, .lit '/', .Mo, .lit '/', .D]
def fmtDmyDash : List Dir := [.D, .lit '-', .Mo, .lit '-', .Y]
def fmtDmySlash : List Dir := [.D, .lit '/', .Mo, .lit '/', .Y]
def fmtLongMonth : List Dir := [.B, .ws, .D, .lit ',', .ws, .Y]
def fmtShortMonth : List Dir := [.Bshort, .ws, .D, .lit ',', .ws, .Y]
def fmtIsoDateTime : List Dir :=
  [.Y, .lit '-', .Mo, .lit '-', .D, .lit 'T', .H, .lit ':', .Mi, .lit ':', .S]
def fmtIsoDateTimeFrac : List Dir :=
  fmtIsoDateTime ++ [.lit '.', .F, .lit 'Z']

def dateFormats : List (List Dir) :=
  [fmtYmdDash, fmtYmdSlash, fmtDmyDash, fmtDmySlash,
   fmtLongMonth, fmtShortMonth, fmtIsoDateTime, fmtIsoDateTimeFrac]

/-! ## `strftime('%Y-%m-%d')` -/

def natDigitChar (n : Nat) : Char := Char.ofNat (48 + n)

def padTwo (n : Nat) : List Char := [natDigitChar (n / 10 % 10), natDigitChar (n % 10)]

def padFour (n : Nat) : List Char :=
  [natDigitChar (n / 1000 % 10), natDigitChar (n / 100 % 10),
   natDigitChar (n / 10 % 10), natDigitChar (n % 10)]

/-- `dt.strftime('%Y-%m-%d')`. -/
def formatYmd (dt : PyDateTime) : String :=
  ⟨padFour dt.year ++ '-' :: (padTwo dt.month ++ '-' :: padTwo dt.day)⟩

/-- The inner loop of `_extract_date`: try the formats in order, the first
format that parses the string wins and its value is reformatted. -/
def tryFormatsList : List (List Dir) → String → Option String
  | [], _ => none
  | fmt :: fmts, s =>
    match strptime fmt s with
    | some dt => some (formatYmd dt)
    | none => tryFormatsList fmts s

def tryDateFormats (s : String) : Option String :=
  tryFormatsList dateFormats s

/-! ## `DataValidator` (`src/data_collection/data_validator.py`)

Records are rows of the pandas DataFrame handed to the validator.  A field
holds `none` when the key/column is absent and `some s` when it holds the
string `s`; the records produced by the scraper carry string values. -/

structure PyRecord where
  title : Option String := none
  content : Option String := none
  date : Option String := none
  source_url : Option String := none
  scrape_date : Option String := none
deriving DecidableEq, Repr

inductive Field where
  | title | content | date | source_url | scrape_date
deriving DecidableEq, Repr

def getField (r : PyRecord) : Field → Option String
  | .title => r.title
  | .content => r.content
  | .date => r.date
  | .source_url => r.source_url
  | .scrape_date => r.scrape_date

structure DataValidator where
  requiredFields : List Field := [.title, .content, .date]
  minContentLength : Nat := 20
deriving Repr

/-- `str(x)` for a field value; an absent value prints as `"None"`. -/
def pyStr : Option String → String
  | some s => s
  | none => "None"

/-- `not data['title'] or pd.isna(data['title'])`: for string values only the
empty string is falsy and `pd.isna` is `False`; an absent key is modelled as
rejection (Python would raise there, which `validate_data` does not catch,
but under the default required fields this branch is unreachable). -/
def titleFalsy : Option String → Bool
  | none => true
  | some s => s = ""

/-- `DataValidator.validate_data`, with `self.date_format = '%d-%m-%Y'`. -/
def validate_data (v : DataValidator) (r : PyRecord) : Bool :=
  if ¬ v.requiredFields.all fun f => (getField r f).isSome then false
  else
    match r.date with
    | none => false
    | some ds =>
      match strptime fmtDmyDash ds with
      | none => false
      | some dt =>
        if dt.year < 2000 || dt.year > 2100 then false
        else if (pyStr r.content).length < v.minContentLength then false
        else if titleFalsy r.title then false
        else true

/-- `DataFrame.drop_duplicates()`: remove rows equal to an earlier row on
every column, keeping the first occurrence, preserving order. -/
def drop_duplicates (rows : List PyRecord) : List PyRecord :=
  go [] rows
where
  go (seen : List PyRecord) : List PyRecord → List PyRecord
    | [] => []
    | r :: rs => if r ∈ seen then go seen rs else r :: go (r :: seen) rs

/-- `DataValidator.validate_dataframe`: drop duplicate rows, then keep the
rows on which `validate_data` holds. -/
def validate_dataframe (v : DataValidator) (df : List PyRecord) : List PyRecord :=
  (drop_duplicates df).filter (validate_data v)

/-- `validate_dataframe` with the object store made explicit: the caller's
DataFrame lives in a heap cell, `df.copy()` allocates a fresh cell, and the
pandas operations used (`drop_duplicates`, boolean-mask selection) allocate
new objects rather than write in place.  Returns the final heap and a
reference to the result. -/
def validate_dataframe_heap (v : DataValidator)
    (heap : List (List PyRecord)) (df : Nat) : List (List PyRecord) × Nat :=
  let input := heap.getD df []
  let cleaned₁ := input
  let heap₁ := heap ++ [cleaned₁]
  let cleaned₂ := drop_duplicates cleaned₁
  let heap₂ := heap₁ ++ [cleaned₂]
  let cleaned₃ := cleaned₂.filter (validate_data v)
  let heap₃ := heap₂ ++ [cleaned₃]
  (heap₃, heap₃.length - 1)

/-! ## Content extraction (`TransportScraper._extract_*`)

A `Soup` records what the `soup.find` calls made by the extractor return on
the fetched page: the first matching element for each selector (after the
non-content elements have been decomposed, for the content containers), the
anchor targets resolved to absolute URLs, and whether the page text contains
one of the anti-bot block indicators. -/

structure Elem where
  attrDatetime : Option String := none
  attrContent : Option String := none
  text : String := ""
deriving DecidableEq, Repr

structure Container where
  blocks : List String := []
deriving DecidableEq, Repr

structure Soup where
  h1 : Option Elem := none
  ogTitle : Option Elem := none
  titleTag : Option Elem := none
  articleTag : Option Container := none
  mainTag : Option Container := none
  divClassContent : Option Container := none
  divIdContent : Option Container := none
  timeTag : Option Elem := none
  classDate : Option Elem := none
  metaArticlePub : Option Elem := none
  metaOgPub : Option Elem := none
  anchors : List String := []
  blockedText : Bool := false
deriving DecidableEq, Repr

/-- `title_tag.get('content', '') or title_tag.text`. -/
def titleText (e : Elem) : String :=
  match e.attrContent with
  | some c => if c = "" then e.text else c
  | none => e.text

def titleCandidates (soup : Soup) : List (Option Elem) :=
  [soup.h1, soup.ogTitle, soup.titleTag]

/-- `TransportScraper._extract_title`: first candidate, in order h1 /
og:title / title, whose whitespace-normalized text is non-empty and longer
than 5 characters. -/
def extract_title (soup : Soup) : Option String :=
  go (titleCandidates soup)
where
  go : List (Option Elem) → Option String
    | [] => none
    | none :: rest => go rest
    | some e :: rest =>
      let t := normWs (titleText e)
      if t ≠ "" ∧ 5 < t.length then some t else go rest

/-- `' '.join(p.text.strip() for p in paragraphs)` then whitespace
normalization. -/
def containerText (c : Container) : String :=
  normWs (String.intercalate " " (c.blocks.map fun b => String.mk (stripWs b.toList)))

def contentCandidates (soup : Soup) : List (Option Container) :=
  [soup.articleTag, soup.mainTag, soup.divClassContent, soup.divIdContent]

/-- `TransportScraper._extract_content`: first container, in order article /
main / content-class div / content-id div, that has block descendants and
whose concatenated normalized text exceeds 100 characters. -/
def extract_content (soup : Soup) : Option String :=
  go (contentCandidates soup)
where
  go : List (Option Container) → Option String
    | [] => none
    | none :: rest => go rest
    | some c :: rest =>
      if c.blocks ≠ [] then
        let text := containerText c
        if 100 < text.length then some text else go rest
      else go rest

/-- `a or b` for an optional first operand: keep `a` when present and
non-empty (truthy), else `b`. -/
def orTruthy (a : Option String) (b : String) : String :=
  match a with
  | some s => if s = "" then b else s
  | none => b

/-- `date_tag.get('datetime') or date_tag.get('content') or date_tag.text`. -/
def dateTagText (e : Elem) : String :=
  orTruthy e.attrDatetime (orTruthy e.attrContent e.text)

def dateCandidates (soup : Soup) : List (Option Elem) :=
  [soup.timeTag, soup.classDate, soup.metaArticlePub, soup.metaOgPub]

/-- `TransportScraper._extract_date`: first date tag whose stripped text
parses under one of the eight formats wins; otherwise the current date. -/
def extract_date (soup : Soup) (today : String) : String :=
  go (dateCandidates soup)
where
  go : List (Option Elem) → String
    | [] => today
    | none :: rest => go rest
    | some e :: rest =>
      match tryDateFormats (String.mk (stripWs (dateTagText e).toList)) with
      | some out => out
      | none => go rest

/-- A record emitted by `scrape_url`. -/
structure ScrapedData where
  title : String
  content : String
  date : String
  source_url : String
  scrape_date : String
  category : Option String := none
  priority : Option Nat := none
deriving DecidableEq, Repr

/-- The record built by `scrape_url` from a fetched page: returned exactly
when `data['title'] and data['content']` is truthy; the extractors only ever
return non-empty strings, so truthiness coincides with presence. -/
def page_record (soup : Soup) (url now today : String) : Option ScrapedData :=
  match extract_title soup, extract_content soup with
  | some t, some c =>
    some { title := t, content := c, date := extract_date soup today,
           source_url := url, scrape_date := now }
  | _, _ => none

/-- `TransportScraper._is_blocked` on a page that passed
`raise_for_status` (status below 400, so the 429 branch cannot fire): does
the page text contain one of the block indicators. -/
def is_blocked (soup : Soup) : Bool :=
  soup.blockedText

/-! ## URL filtering (`TransportScraper._should_scrape_url`) -/

/-- Characters after the first `"://"`, if any (start of the authority). -/
def afterSchemeSep : List Char → Option (List Char)
  | [] => none
  | ':' :: '/' :: '/' :: rest => some rest
  | _ :: rest => afterSchemeSep rest

/-- `urlparse(url).netloc` for the absolute URLs the crawler builds. -/
def urlNetloc (url : String) : String :=
  match afterSchemeSep url.toList with
  | some rest => ⟨rest.takeWhile fun c => c ≠ '/' ∧ c ≠ '?' ∧ c ≠ '#'⟩
  | none => ""

/-- `urlparse(url).path` for the absolute URLs the crawler builds. -/
def urlPath (url : String) : String :=
  match afterSchemeSep url.toList with
  | some rest =>
    ⟨(rest.dropWhile fun c => c ≠ '/' ∧ c ≠ '?' ∧ c ≠ '#').takeWhile
      fun c => c ≠ '?' ∧ c ≠ '#'⟩
  | none => ⟨url.toList.takeWhile fun c => c ≠ '?' ∧ c ≠ '#'⟩

/-- `pattern in path` (Python substring test). -/
def strContains (hay pat : String) : Bool :=
  decide (pat.toList <:+: hay.toList)

def excluded_patterns : List String :=
  ["/login", "/search", "/page/",
   "javascript:", "mailto:", "tel:",
   "/tag/", "/category/", "/author/",
   ".pdf", ".jpg", ".png", ".gif",
   "/feed/", "/rss/", "/xml/", "/raw/",
   "/wp-content/", "/wp-includes/",
   "/comment", "/trackback", "/cart",
   "/account", "/profile", "/user"]

def included_patterns : List String :=
  ["/projects/", "/research/", "/publications/",
   "/news/", "/transport/", "/mobility/",
   "/sustainable/", "/africa/", "/east-africa/",
   "/report", "/study", "/analysis",
   "/policy", "/strategy", "/program"]

/-- `TransportScraper._should_scrape_url`: same network host as the base
URL, no excluded pattern in the lowercased path, and at least one included
pattern in it. -/
def should_scrape_url (url base_url : String) : Bool :=
  if url = "" then false
  else if urlNetloc url ≠ urlNetloc base_url then false
  else
    let path := (urlPath url).toLower
    if excluded_patterns.any fun p => strContains path p then false
    else included_patterns.any fun p => strContains path p

/-! ## The crawl engine

The web is a function from URL to the page served there (`none` models a
fetch failure: timeout, connection error, or an HTTP error status raised by
`raise_for_status`).  The crawl state holds the scraper's `visited_urls` set
and a trace of every HTTP GET issued, tagged with which call site issued it:
`page` for the fetch inside `scrape_url`, `links` for the link-discovery
fetch inside `_scrape_microsites`. -/

inductive FetchKind where
  | page
  | links
deriving DecidableEq, Repr

structure FetchEvent where
  url : String
  kind : FetchKind
deriving DecidableEq, Repr

structure CrawlState where
  visited : List String := []
  trace : List FetchEvent := []
deriving Repr

/-- `TransportScraper.scrape_url` (the second, effective definition): skip a
visited URL; otherwise mark it visited, GET it, and on a non-blocked page
return the extracted record when both title and content were found. -/
def scrape_url (web : String → Option Soup) (now today : String)
    (s : CrawlState) (url : String) : CrawlState × Option ScrapedData :=
  if url ∈ s.visited then (s, none)
  else
    let s' : CrawlState :=
      { visited := url :: s.visited, trace := s.trace ++ [⟨url, .page⟩] }
    match web url with
    | none => (s', none)
    | some soup =>
      if is_blocked soup then (s', none)
      else (s', page_record soup url now today)

mutual

/-- `TransportScraper._scrape_microsites`: below the depth bound, GET the
page to discover its anchors (this fetch is not guarded by the visited set)
and walk them in order. -/
def scrape_microsites (web : String → Option Soup) (now today : String)
    (maxDepth : Nat) (s : CrawlState) (url : String) (depth : Nat) :
    CrawlState × List ScrapedData :=
  if h : maxDepth ≤ depth then (s, [])
  else
    let s' : CrawlState :=
      { visited := s.visited, trace := s.trace ++ [⟨url, .links⟩] }
    match web url with
    | none => (s', [])
    | some soup =>
      micrositeLinkLoop web now today maxDepth s' url depth
        (Nat.lt_of_not_le h) soup.anchors
termination_by ((maxDepth - depth, 1, 0) : Nat × Nat × Nat)

/-- The `for link in links` body of `_scrape_microsites`: filtered links are
scraped; each link that yields a record is recursed into at `depth + 1`.
The loop only runs under the depth guard; the guard is carried as a
(proof-irrelevant) hypothesis for termination. -/
def micrositeLinkLoop (web : String → Option Soup) (now today : String)
    (maxDepth : Nat) (s : CrawlState) (url : String) (depth : Nat)
    (hdepth : depth < maxDepth) :
    List String → CrawlState × List ScrapedData
  | [] => (s, [])
  | next :: rest =>
    if should_scrape_url next url then
      match scrape_url web now today s next with
      | (s₁, some rec) =>
        let res := scrape_microsites web now today maxDepth s₁ next (depth + 1)
        let res' :=
          micrositeLinkLoop web now today maxDepth res.1 url depth hdepth rest
        (res'.1, rec :: (res.2 ++ res'.2))
      | (s₁, none) =>
        micrositeLinkLoop web now today maxDepth s₁ url depth hdepth rest
    else micrositeLinkLoop web now today maxDepth s url depth hdepth rest
termination_by links => ((maxDepth - depth, 0, links.length) : Nat × Nat × Nat)

end

/-- A crawl target as read from the site configuration;
`none` fields fall back to the `dict.get` defaults at the use sites. -/
structure SiteConfig where
  url : String
  name : Option String := none
  priority : Option Nat := none
  include_microsites : Option Bool := none
deriving Repr

/-- `TransportScraper.scrape_site_with_microsites` (the second, effective
definition): scrape the base URL, tag a successful record with the target's
category and priority, then, when microsites are enabled, run the recursive
microsite scrape from the base URL at depth 0. -/
def scrape_site_with_microsites (web : String → Option Soup)
    (now today : String) (maxDepth : Nat) (s : CrawlState)
    (site : SiteConfig) : CrawlState × List ScrapedData :=
  let base_url := site.url
  let (s₁, main?) := scrape_url web now today s base_url
  let data := match main? with
    | some m =>
      [{ m with source_url := base_url,
                category := some (site.name.getD "Uncategorized"),
                priority := some (site.priority.getD 3) }]
    | none => []
  if site.include_microsites.getD true then
    let (s₂, micro) := scrape_microsites web now today maxDepth s₁ base_url 0
    (s₂, data ++ micro)
  else (s₁, data)

/-- `self.max_depth = 2` in `TransportScraper.__init__`. -/
def transportMaxDepth : Nat := 2

/-- `max_workers=3` default of `_scrape_microsites_parallel`. -/
def parallelMaxWorkers : Nat := 3

/-! ## Python method resolution in the `TransportScraper` class body

The class body defines `scrape_site_with_microsites` and `scrape_url` twice
each; under Python semantics the later `def` statement rebinds the name, so
only the later definitions exist on the class. -/

inductive PyMethod where
  | initMethod
  | create_robust_session
  | site_with_microsites_v1
  | scrape_microsites_parallel
  | get_links
  | scrape_url_v1
  | get_delay
  | get_headers
  | site_with_microsites_v2
  | scrape_url_v2
  | is_blocked_m
  | scrape_microsites_m
  | should_scrape_url_m
  | extract_title_m
  | extract_content_m
  | extract_date_m
deriving DecidableEq, Repr

/-- The `def` statements of the class body, in source order. -/
def transportScraperBody : List (String × PyMethod) :=
  [("__init__", .initMethod),
   ("_create_robust_session", .create_robust_session),
   ("scrape_site_with_microsites", .site_with_microsites_v1),
   ("_scrape_microsites_parallel", .scrape_microsites_parallel),
   ("_get_links", .get_links),
   ("scrape_url", .scrape_url_v1),
   ("get_delay", .get_delay),
   ("_get_headers", .get_headers),
   ("scrape_site_with_microsites", .site_with_microsites_v2),
   ("scrape_url", .scrape_url_v2),
   ("_is_blocked", .is_blocked_m),
   ("_scrape_microsites", .scrape_microsites_m),
   ("_should_scrape_url", .should_scrape_url_m),
   ("_extract_title", .extract_title_m),
   ("_extract_content", .extract_content_m),
   ("_extract_date", .extract_date_m)]

/-- Looking a method up on the class: the last binding of the name wins. -/
def resolveMethod (name : String) : Option PyMethod :=
  ((transportScraperBody.filter fun b => b.1 = name).getLast?).map Prod.snd

/-- The method names each body invokes on `self`, from the source text. -/
def methodCalls : PyMethod → List String
  | .initMethod => ["_create_robust_session"]
  | .site_with_microsites_v1 => ["scrape_url", "_scrape_microsites_parallel"]
  | .scrape_microsites_parallel =>
    ["_get_links", "scrape_url", "_should_scrape_url"]
  | .scrape_url_v1 =>
    ["_get_headers", "_is_blocked", "_extract_title", "_extract_content",
     "_extract_date"]
  | .site_with_microsites_v2 => ["scrape_url", "_scrape_microsites"]
  | .scrape_url_v2 =>
    ["get_delay", "_get_headers", "_is_blocked", "_extract_title",
     "_extract_content", "_extract_date"]
  | .scrape_microsites_m =>
    ["get_delay", "_get_headers", "_should_scrape_url", "scrape_url",
     "_scrape_microsites"]
  | _ => []

/-- Bodies reached from `m` through resolved method lookups. -/
def calledMethods (m : PyMethod) : List PyMethod :=
  (methodCalls m).filterMap resolveMethod

def reachStep (ms : List PyMethod) : List PyMethod :=
  (ms ++ ms.flatMap calledMethods).dedup

/-- Transitive closure of the call relation from `m`; sixteen rounds suffice
because the class has sixteen method bodies. -/
def reachableMethods (m : PyMethod) : List PyMethod :=
  Nat.iterate reachStep 16 [m]

/-- The validator with its default configuration, as built by
`DataValidator()`. -/
def defaultValidator : DataValidator := {}

/-! ## Facts about `drop_duplicates` -/

theorem dropDup_go_mem (l : List PyRecord) (seen : List PyRecord) (a : PyRecord) :
    a ∈ drop_duplicates.go seen l ↔ a ∈ l ∧ a ∉ seen := by
  induction l generalizing seen with
  | nil => simp [drop_duplicates.go]
  | cons r rs ih =>
    rw [drop_duplicates.go]
    by_cases h : r ∈ seen
    · rw [if_pos h, ih]
      simp only [List.mem_cons]
      constructor
      · rintro ⟨ha, hs⟩
        exact ⟨Or.inr ha, hs⟩
      · rintro ⟨rfl | ha, hs⟩
        · exact absurd h hs
        · exact ⟨ha, hs⟩
    · rw [if_neg h]
      simp only [List.mem_cons, ih, List.mem_cons]
      constructor
      · rintro (rfl | ⟨ha, hs⟩)
        · exact ⟨Or.inl rfl, h⟩
        · exact ⟨Or.inr ha, fun hseen => hs (Or.inr hseen)⟩
      · rintro ⟨rfl | ha, hs⟩
        · exact Or.inl rfl
        · by_cases har : a = r
          · exact Or.inl har
          · exact Or.inr ⟨ha, fun hx => hx.elim har hs⟩

theorem dropDup_go_nodup (l : List PyRecord) (seen : List PyRecord) :
    (drop_duplicates.go seen l).Nodup := by
  induction l generalizing seen with
  | nil => simp [drop_duplicates.go]
  | cons r rs ih =>
    rw [drop_duplicates.go]
    split
    case isTrue h => exact ih seen
    case isFalse h =>
      refine List.nodup_cons.mpr ⟨?_, ih (r :: seen)⟩
      rw [dropDup_go_mem]
      simp

theorem dropDup_go_sublist (l : List PyRecord) (seen : List PyRecord) :
    List.Sublist (drop_duplicates.go seen l) l := by
  induction l generalizing seen with
  | nil => simp [drop_duplicates.go]
  | cons r rs ih =>
    rw [drop_duplicates.go]
    split
    · exact (ih seen).cons r
    · exact (ih (r :: seen)).cons₂ r

theorem dropDup_go_eq_self (l : List PyRecord) :
    ∀ seen, l.Nodup → (∀ a ∈ l, a ∉ seen) → drop_duplicates.go seen l = l := by
  induction l with
  | nil => intro seen _ _; simp [drop_duplicates.go]
  | cons r rs ih =>
    intro seen hnd hout
    rw [drop_duplicates.go, if_neg (hout r (List.mem_cons_self r rs))]
    rw [ih (r :: seen) (List.nodup_cons.mp hnd).2]
    intro a ha
    simp only [List.mem_cons]
    rintro (rfl | h)
    · exact (List.nodup_cons.mp hnd).1 ha
    · exact hout a (List.mem_cons_of_mem r ha) h

theorem drop_duplicates_nodup (l : List PyRecord) : (drop_duplicates l).Nodup :=
  dropDup_go_nodup l []

theorem drop_duplicates_sublist (l : List PyRecord) :
    List.Sublist (drop_duplicates l) l :=
  dropDup_go_sublist l []

theorem drop_duplicates_mem (l : List PyRecord) (a : PyRecord) :
    a ∈ drop_duplicates l ↔ a ∈ l := by
  rw [drop_duplicates, dropDup_go_mem]
  simp

theorem drop_duplicates_of_nodup (l : List PyRecord) (h : l.Nodup) :
    drop_duplicates l = l :=
  dropDup_go_eq_self l [] h (by simp)

/-- The `seen` accumulator only matters through membership. -/
theorem dropDup_go_congr (l : List PyRecord) :
    ∀ seen₁ seen₂, (∀ a, a ∈ seen₁ ↔ a ∈ seen₂) →
      drop_duplicates.go seen₁ l = drop_duplicates.go seen₂ l := by
  induction l with
  | nil => intro seen₁ seen₂ _; simp [drop_duplicates.go]
  | cons x xs ih =>
    intro seen₁ seen₂ hs
    rw [drop_duplicates.go, drop_duplicates.go]
    by_cases hx : x ∈ seen₁
    · rw [if_pos hx, if_pos ((hs x).mp hx)]
      exact ih seen₁ seen₂ hs
    · rw [if_neg hx, if_neg (fun h => hx ((hs x).mpr h))]
      rw [ih (x :: seen₁) (x :: seen₂) (by intro a; simp [List.mem_cons, hs a])]

theorem dropDup_go_filter (l : List PyRecord) :
    ∀ (a : PyRecord) (seen : List PyRecord),
      drop_duplicates.go (a :: seen) l =
        drop_duplicates.go seen (l.filter fun b => b ≠ a) := by
  induction l with
  | nil => intro a seen; simp [drop_duplicates.go]
  | cons x xs ih =>
    intro a seen
    by_cases hxa : x = a
    · subst hxa
      rw [drop_duplicates.go, if_pos (List.mem_cons_self x seen)]
      simp only [List.filter_cons, decide_eq_true_eq]
      rw [if_neg (by simp)]
      exact ih x seen
    · simp only [List.filter_cons, decide_eq_true_eq, if_pos hxa]
      rw [drop_duplicates.go, drop_duplicates.go]
      by_cases hs : x ∈ seen
      · rw [if_pos (List.mem_cons_of_mem a hs), if_pos hs]
        exact ih a seen
      · rw [if_neg (by simp [List.mem_cons, hxa, hs]), if_neg hs]
        congr 1
        rw [dropDup_go_congr xs (x :: a :: seen) (a :: x :: seen)
          (by intro b; simp [List.mem_cons]; tauto)]
        exact ih a (x :: seen)

/-- `drop_duplicates` keeps the first occurrence: the head survives, and
every later copy of it is removed before the rest is deduplicated. -/
theorem drop_duplicates_cons (r : PyRecord) (l : List PyRecord) :
    drop_duplicates (r :: l) =
      r :: drop_duplicates (l.filter fun b => b ≠ r) := by
  rw [drop_duplicates, drop_duplicates.go, if_neg (List.not_mem_nil r)]
  rw [dropDup_go_filter]
  rfl

/-! ## Claim C4: the validator is idempotent -/

/-- C4: for every record set, running `validate_dataframe` twice yields the
same result as running it once: deduplication leaves a duplicate-free list
unchanged, and every surviving row still passes `validate_data`. -/
theorem validate_dataframe_idempotent (v : DataValidator) (df : List PyRecord) :
    validate_dataframe v (validate_dataframe v df) = validate_dataframe v df := by
  have hnd : (validate_dataframe v df).Nodup :=
    List.Nodup.filter _ (drop_duplicates_nodup df)
  show (drop_duplicates (validate_dataframe v df)).filter (validate_data v) =
    validate_dataframe v df
  rw [drop_duplicates_of_nodup _ hnd]
  exact List.filter_eq_self.mpr fun a ha => (List.mem_filter.mp ha).2

/-! ## Claim C10: the caller's DataFrame is left unchanged -/

/-- C10: `validate_dataframe` works on a copy: in the explicit-heap model
every pre-existing heap cell — in particular the caller's DataFrame — holds
after the call exactly the value it held before, and the returned reference
holds the pure function of the input. -/
theorem validate_dataframe_preserves_input (v : DataValidator)
    (heap : List (List PyRecord)) (df : Nat) :
    (validate_dataframe_heap v heap df).1.take heap.length = heap ∧
    (validate_dataframe_heap v heap df).1.getD
        (validate_dataframe_heap v heap df).2 [] =
      validate_dataframe v (heap.getD df []) := by
  constructor
  · show (((heap ++ _) ++ _) ++ _).take heap.length = heap
    rw [List.append_assoc, List.append_assoc]
    exact List.take_left heap _
  · show (((heap ++ _) ++ _) ++ _).getD ((((heap ++ _) ++ _) ++ _).length - 1) [] = _
    rw [List.getD_eq_getElem?_getD]
    rw [List.getElem?_append_right (by simp)]
    simp [validate_dataframe]

/-! ## Claim C3: the deduplication key -/

def recSameA : PyRecord :=
  { title := some "East Africa Transport Study",
    content := some "A shared body of content that is long enough to pass.",
    date := some "05-03-2023",
    source_url := some "https://a.org/research/x" }

def recSameB : PyRecord :=
  { recSameA with source_url := some "https://a.org/research/y" }

/-- C3 counterexample: two records agreeing on title and content but
differing in `source_url` are NOT treated as duplicates — both survive
`validate_dataframe`, because `drop_duplicates()` compares entire rows. -/
theorem dedup_not_on_title_content :
    recSameA.title = recSameB.title ∧ recSameA.content = recSameB.content ∧
    recSameA ≠ recSameB ∧
    validate_dataframe defaultValidator [recSameA, recSameB] =
      [recSameA, recSameB] := by decide

/-- C3 (amended): duplicates are identified by equality of the whole record
(every field), keeping the first occurrence: the head survives and later
full-row copies of it are removed, the result is duplicate-free and a
sublist with the same members; rows equal on `(title, content)` alone are
both kept. -/
theorem dedup_key_is_full_row :
    (∀ (r : PyRecord) (l : List PyRecord),
      drop_duplicates (r :: l) =
        r :: drop_duplicates (l.filter fun b => b ≠ r)) ∧
    (∀ l : List PyRecord, (drop_duplicates l).Nodup ∧
      List.Sublist (drop_duplicates l) l ∧
      ∀ a, a ∈ drop_duplicates l ↔ a ∈ l) ∧
    (∀ (v : DataValidator) (r₁ r₂ : PyRecord),
      r₁.title = r₂.title → r₁.content = r₂.content → r₁ ≠ r₂ →
      validate_data v r₁ = true → validate_data v r₂ = true →
      validate_dataframe v [r₁, r₂] = [r₁, r₂]) := by
  refine ⟨drop_duplicates_cons, fun l =>
    ⟨drop_duplicates_nodup l, drop_duplicates_sublist l, drop_duplicates_mem l⟩,
    fun v r₁ r₂ _ _ hne h₁ h₂ => ?_⟩
  have hdd : drop_duplicates [r₁, r₂] = [r₁, r₂] :=
    drop_duplicates_of_nodup _ (by simp [hne])
  show (drop_duplicates [r₁, r₂]).filter (validate_data v) = [r₁, r₂]
  rw [hdd]
  simp [h₁, h₂]

/-- Closed instance of the amended C3 at a concrete input. -/
theorem dedup_key_is_full_row_witness :
    validate_dataframe defaultValidator [recSameA, recSameB] =
      [recSameA, recSameB] :=
  dedup_key_is_full_row.2.2 defaultValidator recSameA recSameB rfl rfl
    (by decide) (by decide) (by decide)

/-! ## Claim C1: the validator's date handling -/

def recIsoDate : PyRecord :=
  { title := some "Transport Research Overview",
    content := some "This content is long enough to pass the minimum length check.",
    date := some "2023-03-05" }

/-- C1 counterexample: a record whose date is already in `YYYY-MM-DD` form
with an in-range year (2023) is REJECTED: `validate_data` parses dates only
with the strict `%d-%m-%Y` format, not a permissive parser. -/
theorem date_check_rejects_iso :
    strptime fmtYmdDash "2023-03-05" = some ⟨2023, 3, 5, 0, 0, 0, 0⟩ ∧
    validate_data defaultValidator recIsoDate = false := by decide

/-- C1 (amended): the date field is parsed strictly against the single
format `DD-MM-YYYY` (`datetime.strptime` with `'%d-%m-%Y'`); the record is
rejected when that one parse fails — in particular a `YYYY-MM-DD` date is
rejected — no normalization of the date is performed, and the record is
rejected when the parsed year is outside `[2000, 2100]`.  Full
characterization of `validate_data` under the default configuration. -/
theorem validate_data_strict_dmy (r : PyRecord) :
    validate_data defaultValidator r = true ↔
      ∃ t c ds dt, r.title = some t ∧ r.content = some c ∧ r.date = some ds ∧
        strptime fmtDmyDash ds = some dt ∧
        2000 ≤ dt.year ∧ dt.year ≤ 2100 ∧
        defaultValidator.minContentLength ≤ c.length ∧ t ≠ "" := by
  obtain ⟨t?, c?, d?, su?, sd?⟩ := r
  cases t? <;> cases c? <;> cases d? <;>
    simp [validate_data, defaultValidator, getField, pyStr, titleFalsy]
  case some.some.some t c ds =>
    cases h : strptime fmtDmyDash ds <;> simp [h]
    case some dt =>
      tauto

/-! ## Claim C6: the content-length boundary -/

def recTrailingSpace : PyRecord :=
  { title := some "Valid Report Title",
    content := some "aaaaaaaaaaaaaaaaaaa ",
    date := some "01-01-2024" }

/-- C6 counterexample: a record whose content has trimmed length exactly
`min_content_length - 1` (19 characters plus a trailing space) is ACCEPTED,
because `validate_data` measures `len(str(content))` without trimming. -/
theorem content_length_not_trimmed :
    (String.mk (stripWs "aaaaaaaaaaaaaaaaaaa ".toList)).length =
      defaultValidator.minContentLength - 1 ∧
    validate_data defaultValidator recTrailingSpace = true := by decide

/-- C6 (amended): the length check uses the raw, untrimmed content length
(`len(str(data['content']))`): for a record whose other checks pass, a
content of raw length `min_content_length - 1` is rejected and one of raw
length `min_content_length` is accepted; whitespace at either end counts
toward the minimum. -/
theorem content_length_boundary (v : DataValidator) (r : PyRecord) (s : String)
    (hc : r.content = some s)
    (hreq : (v.requiredFields.all fun f => (getField r f).isSome) = true)
    (hdate : ∃ ds dt, r.date = some ds ∧ strptime fmtDmyDash ds = some dt ∧
      2000 ≤ dt.year ∧ dt.year ≤ 2100)
    (htitle : titleFalsy r.title = false) :
    (s.length + 1 = v.minContentLength → validate_data v r = false) ∧
    (v.minContentLength ≤ s.length → validate_data v r = true) := by
  obtain ⟨ds, dt, hds, hdt, hy1, hy2⟩ := hdate
  unfold validate_data
  rw [if_neg (by simp [hreq])]
  simp only [hds, hdt, hc, pyStr]
  have hyear : ¬ (dt.year < 2000 || dt.year > 2100) = true := by
    simp only [Bool.or_eq_true, decide_eq_true_eq]
    omega
  constructor
  · intro hlen
    rw [if_neg hyear, if_pos (by omega)]
  · intro hlen
    rw [if_neg hyear, if_neg (by omega), if_neg (by simp [htitle])]

def recNineteen : PyRecord :=
  { title := some "Valid Report Title",
    content := some "aaaaaaaaaaaaaaaaaaa",
    date := some "01-01-2024" }

def recTwenty : PyRecord :=
  { title := some "Valid Report Title",
    content := some "aaaaaaaaaaaaaaaaaaaa",
    date := some "01-01-2024" }

/-- Closed instance of the amended C6 boundary at concrete 19- and
20-character contents. -/
theorem content_length_boundary_witness :
    validate_data defaultValidator recNineteen = false ∧
    validate_data defaultValidator recTwenty = true :=
  ⟨(content_length_boundary defaultValidator recNineteen
      "aaaaaaaaaaaaaaaaaaa" rfl (by decide)
      ⟨"01-01-2024", ⟨2024, 1, 1, 0, 0, 0, 0⟩, rfl, by decide, by decide,
        by decide⟩ (by decide)).1 (by decide),
   (content_length_boundary defaultValidator recTwenty
      "aaaaaaaaaaaaaaaaaaaa" rfl (by decide)
      ⟨"01-01-2024", ⟨2024, 1, 1, 0, 0, 0, 0⟩, rfl, by decide, by decide,
        by decide⟩ (by decide)).2 (by decide)⟩

/-! ## Claim C5: date normalization in the extractor -/

theorem daysInMonth_le (y m : Nat) : daysInMonth y m ≤ 31 := by
  unfold daysInMonth
  split_ifs <;> omega

/-- A successful `strptime` yields calendar-bounded fields: the constructor
checks enforce them. -/
theorem strptime_bounds (fmt : List Dir) (s : String) (dt : PyDateTime)
    (h : strptime fmt s = some dt) :
    1 ≤ dt.year ∧ dt.year ≤ 9999 ∧ 1 ≤ dt.month ∧ dt.month ≤ 12 ∧
    1 ≤ dt.day ∧ dt.day ≤ 31 := by
  unfold strptime at h
  cases hr : runDirs fmt {} s.toList with
  | none => rw [hr] at h; simp at h
  | some r =>
    rw [hr] at h
    simp only [Option.some_bind] at h
    unfold mkPyDateTime at h
    split at h
    case isTrue hcond =>
      simp only [Bool.and_eq_true, decide_eq_true_eq] at hcond
      cases h
      have hdm := daysInMonth_le r.y r.mo
      refine ⟨?_, ?_, ?_, ?_, ?_, ?_⟩ <;> dsimp only <;> omega
    case isFalse => exact absurd h (by simp)

theorem tryFormatsList_some (fmts : List (List Dir)) (s : String) (out : String)
    (h : tryFormatsList fmts s = some out) :
    ∃ dt, 1 ≤ dt.year ∧ dt.year ≤ 9999 ∧ 1 ≤ dt.month ∧ dt.month ≤ 12 ∧
      1 ≤ dt.day ∧ dt.day ≤ 31 ∧ out = formatYmd dt := by
  induction fmts with
  | nil => simp [tryFormatsList] at h
  | cons fmt fmts ih =>
    rw [tryFormatsList] at h
    cases hp : strptime fmt s with
    | none => rw [hp] at h; exact ih h
    | some dt =>
      rw [hp] at h
      obtain ⟨b1, b2, b3, b4, b5, b6⟩ := strptime_bounds fmt s dt hp
      exact ⟨dt, b1, b2, b3, b4, b5, b6, (Option.some.inj h).symm⟩

/-- The first format in the ordered list that parses wins (`findSome?`). -/
theorem tryFormatsList_first_wins (fmts : List (List Dir)) (s : String) :
    tryFormatsList fmts s =
      (fmts.findSome? fun fmt => strptime fmt s).map formatYmd := by
  induction fmts with
  | nil => simp [tryFormatsList]
  | cons fmt fmts ih =>
    rw [tryFormatsList, List.findSome?_cons]
    cases hp : strptime fmt s <;> simp [hp, ih]

/-- C5: for every date string matching a supported format, the extractor's
date step parses it and reformats it to `YYYY-MM-DD`: the named examples
hold, the first format of the ordered list that parses wins, and every
output is `formatYmd` of a calendar-bounded parse (four-digit year,
two-digit month and day, dash-separated). -/
theorem extract_date_normalization (s : String) :
    tryDateFormats "March 5, 2023" = some "2023-03-05" ∧
    tryDateFormats "2023-03-05T10:00:00.000Z" = some "2023-03-05" ∧
    tryDateFormats s =
      (dateFormats.findSome? fun fmt => strptime fmt s).map formatYmd ∧
    ∀ out, tryDateFormats s = some out →
      ∃ dt, 1 ≤ dt.year ∧ dt.year ≤ 9999 ∧ 1 ≤ dt.month ∧ dt.month ≤ 12 ∧
        1 ≤ dt.day ∧ dt.day ≤ 31 ∧ out = formatYmd dt :=
  ⟨by decide, by decide, tryFormatsList_first_wins dateFormats s,
   fun out h => tryFormatsList_some dateFormats s out h⟩

/-- Closed instance of C5 at a concrete slash-format date. -/
theorem extract_date_normalization_witness :
    tryDateFormats "March 5, 2023" = some "2023-03-05" ∧
    tryDateFormats "2023-03-05T10:00:00.000Z" = some "2023-03-05" ∧
    ∃ dt, 1 ≤ dt.year ∧ dt.year ≤ 9999 ∧ 1 ≤ dt.month ∧ dt.month ≤ 12 ∧
      1 ≤ dt.day ∧ dt.day ≤ 31 ∧ "2023-04-07" = formatYmd dt :=
  ⟨(extract_date_normalization "2023/04/07").1,
   (extract_date_normalization "2023/04/07").2.1,
   (extract_date_normalization "2023/04/07").2.2.2 "2023-04-07" (by decide)⟩

/-! ## Claim C8: the extraction gate -/

theorem extract_title_go_bound : ∀ (l : List (Option Elem)) (t : String),
    extract_title.go l = some t → t ≠ "" ∧ 5 < t.length := by
  intro l
  induction l with
  | nil => intro t h; simp [extract_title.go] at h
  | cons e? rest ih =>
    intro t h
    cases e? with
    | none =>
      rw [extract_title.go] at h
      exact ih t h
    | some e =>
      rw [extract_title.go] at h
      split at h
      case isTrue hcond => cases h; exact hcond
      case isFalse => exact ih t h

theorem extract_content_go_bound : ∀ (l : List (Option Container)) (c : String),
    extract_content.go l = some c → 100 < c.length := by
  intro l
  induction l with
  | nil => intro c h; simp [extract_content.go] at h
  | cons k? rest ih =>
    intro c h
    cases k? with
    | none =>
      rw [extract_content.go] at h
      exact ih c h
    | some k =>
      rw [extract_content.go] at h
      split at h
      case isTrue =>
        dsimp only at h
        split at h
        case isTrue hlen => cases h; exact hlen
        case isFalse => exact ih c h
      case isFalse => exact ih c h

/-- C8: `scrape_url` produces a record exactly when both a title and content
are found; the title is a candidate exceeding 5 characters after whitespace
normalization (so never empty), the content exceeds 100 characters, and a
produced record carries exactly the extracted title, content, date,
source URL, and scrape date. -/
theorem record_iff_title_and_content (soup : Soup) (url now today : String) :
    ((page_record soup url now today).isSome ↔
      (extract_title soup).isSome ∧ (extract_content soup).isSome) ∧
    (∀ t, extract_title soup = some t → t ≠ "" ∧ 5 < t.length) ∧
    (∀ c, extract_content soup = some c → 100 < c.length) ∧
    (∀ r, page_record soup url now today = some r →
      extract_title soup = some r.title ∧
      extract_content soup = some r.content ∧
      r.date = extract_date soup today ∧ r.source_url = url ∧
      r.scrape_date = now) := by
  refine ⟨?_, fun t h => extract_title_go_bound _ t h,
    fun c h => extract_content_go_bound _ c h, ?_⟩
  · unfold page_record
    cases ht : extract_title soup <;> cases hc : extract_content soup <;>
      simp [ht, hc]
  · intro r hr
    unfold page_record at hr
    cases ht : extract_title soup <;> rw [ht] at hr <;>
      cases hc : extract_content soup <;> rw [hc] at hr <;>
      simp only [reduceCtorEq] at hr
    cases hr
    exact ⟨rfl, rfl, rfl, rfl, rfl⟩

def soupExample : Soup :=
  { h1 := some { text := "East African Transport Futures" },
    articleTag := some { blocks :=
      ["Rapid urbanisation across the region is reshaping how people and goods move between cities, and planners are responding with new rail, bus and non-motorised corridors."] },
    timeTag := some { attrDatetime := some "2023-01-15" } }

/-- Closed instance of C8's title bound at a concrete page. -/
theorem record_iff_title_and_content_witness :
    "East African Transport Futures" ≠ "" ∧
    5 < ("East African Transport Futures").length :=
  (record_iff_title_and_content soupExample "https://a.org/" "now"
    "2024-01-01").2.1 "East African Transport Futures" (by decide)

/-! ## Claim C9: the bounded worker pool -/

/-- C9: the class body binds `scrape_site_with_microsites` twice, and Python
resolves the name to the LATER definition, which calls `scrape_url` and the
sequential recursive `_scrape_microsites`; the body that dispatched children
to the 3-worker pool (`_scrape_microsites_parallel`) is the earlier,
shadowed definition, and no method reachable from the effective entry point
ever calls the pool.  Microsite scraping therefore runs sequentially. -/
theorem parallel_pool_is_dead_code :
    resolveMethod "scrape_site_with_microsites" =
      some PyMethod.site_with_microsites_v2 ∧
    resolveMethod "scrape_url" = some PyMethod.scrape_url_v2 ∧
    methodCalls PyMethod.site_with_microsites_v2 =
      ["scrape_url", "_scrape_microsites"] ∧
    PyMethod.scrape_microsites_parallel ∉
      reachableMethods PyMethod.site_with_microsites_v2 ∧
    methodCalls PyMethod.site_with_microsites_v1 =
      ["scrape_url", "_scrape_microsites_parallel"] ∧
    parallelMaxWorkers = 3 := by decide

/-! ## Claims C2 and C7: fetch-once invariant and depth bound -/

/-- The URLs of the GETs issued by `scrape_url` (the visited-guarded ones). -/
def pageFetchUrls (tr : List FetchEvent) : List String :=
  (tr.filter fun e => e.kind == FetchKind.page).map FetchEvent.url

/-- One crawl step: the visited set only grows, the trace is only appended
to, and the appended page fetches are pairwise distinct URLs, unvisited
before the step and visited after it. -/
def CrawlStep (s s' : CrawlState) : Prop :=
  (∀ u, u ∈ s.visited → u ∈ s'.visited) ∧
  ∃ Δ, s'.trace = s.trace ++ Δ ∧ (pageFetchUrls Δ).Nodup ∧
    ∀ u ∈ pageFetchUrls Δ, u ∉ s.visited ∧ u ∈ s'.visited

theorem CrawlStep.refl (s : CrawlState) : CrawlStep s s :=
  ⟨fun _ h => h, [], by simp, by simp [pageFetchUrls], by simp [pageFetchUrls]⟩

theorem pageFetchUrls_append (Δ₁ Δ₂ : List FetchEvent) :
    pageFetchUrls (Δ₁ ++ Δ₂) = pageFetchUrls Δ₁ ++ pageFetchUrls Δ₂ := by
  simp [pageFetchUrls]

theorem CrawlStep.trans {s₁ s₂ s₃ : CrawlState}
    (h₁ : CrawlStep s₁ s₂) (h₂ : CrawlStep s₂ s₃) : CrawlStep s₁ s₃ := by
  obtain ⟨hv₁, Δ₁, ht₁, hn₁, hf₁⟩ := h₁
  obtain ⟨hv₂, Δ₂, ht₂, hn₂, hf₂⟩ := h₂
  refine ⟨fun u h => hv₂ u (hv₁ u h), Δ₁ ++ Δ₂,
    by rw [ht₂, ht₁, List.append_assoc], ?_, ?_⟩
  · rw [pageFetchUrls_append, List.nodup_append]
    exact ⟨hn₁, hn₂, fun u hu₁ hu₂ => (hf₂ u hu₂).1 ((hf₁ u hu₁).2)⟩
  · intro u hu
    rw [pageFetchUrls_append] at hu
    rcases List.mem_append.mp hu with h | h
    · exact ⟨(hf₁ u h).1, hv₂ u (hf₁ u h).2⟩
    · exact ⟨fun hvis => (hf₂ u h).1 (hv₁ u hvis), (hf₂ u h).2⟩

/-- The state `scrape_url` returns: unchanged for a visited URL, otherwise
the URL is marked visited and one page fetch is appended. -/
theorem scrape_url_fst (web : String → Option Soup) (now today : String)
    (s : CrawlState) (url : String) :
    (scrape_url web now today s url).1 =
      if url ∈ s.visited then s
      else { visited := url :: s.visited,
             trace := s.trace ++ [⟨url, FetchKind.page⟩] } := by
  unfold scrape_url
  by_cases hvis : url ∈ s.visited
  · rw [if_pos hvis, if_pos hvis]
  · rw [if_neg hvis, if_neg hvis]
    cases web url with
    | none => rfl
    | some soup =>
      dsimp only
      split <;> rfl

theorem scrape_url_step (web : String → Option Soup) (now today : String)
    (s : CrawlState) (url : String) :
    CrawlStep s (scrape_url web now today s url).1 := by
  rw [scrape_url_fst]
  by_cases hvis : url ∈ s.visited
  · rw [if_pos hvis]; exact CrawlStep.refl s
  · rw [if_neg hvis]
    refine ⟨fun u h => List.mem_cons_of_mem _ h,
      [⟨url, FetchKind.page⟩], rfl, by simp [pageFetchUrls], ?_⟩
    intro u hu
    simp [pageFetchUrls] at hu
    subst hu
    exact ⟨hvis, List.mem_cons_self _ _⟩

theorem crawl_loop_step (web : String → Option Soup) (now today : String)
    (maxDepth : Nat) {depth : Nat} (hd : depth < maxDepth)
    (ih : ∀ (s : CrawlState) (url : String),
      CrawlStep s (scrape_microsites web now today maxDepth s url (depth + 1)).1) :
    ∀ (links : List String) (s : CrawlState) (url : String),
      CrawlStep s (micrositeLinkLoop web now today maxDepth s url depth hd links).1 := by
  intro links
  induction links with
  | nil =>
    intro s url
    rw [micrositeLinkLoop]
    exact CrawlStep.refl s
  | cons next rest ihl =>
    intro s url
    rw [micrositeLinkLoop]
    by_cases hsc : should_scrape_url next url
    · rw [if_pos hsc]
      cases hres : scrape_url web now today s next with
    | mk s₁ r? =>
      have h₁ : CrawlStep s s₁ := by
        have h := scrape_url_step web now today s next
        rwa [hres] at h
      cases r? with
      | some rec =>
        dsimp only
        exact h₁.trans ((ih s₁ next).trans (ihl _ url))
      | none =>
        dsimp only
        exact h₁.trans (ihl s₁ url)
    · rw [if_neg hsc]
      exact ihl s url

theorem crawl_micro_step (web : String → Option Soup) (now today : String)
    (maxDepth : Nat) :
    ∀ (n depth : Nat), maxDepth - depth ≤ n →
      ∀ (s : CrawlState) (url : String),
        CrawlStep s (scrape_microsites web now today maxDepth s url depth).1 := by
  intro n
  induction n with
  | zero =>
    intro depth hd s url
    rw [scrape_microsites, dif_pos (by omega)]
    exact CrawlStep.refl s
  | succ n ih =>
    intro depth hd s url
    rw [scrape_microsites]
    by_cases hle : maxDepth ≤ depth
    · rw [dif_pos hle]; exact CrawlStep.refl s
    · rw [dif_neg hle]
      have hstep : CrawlStep s
          { visited := s.visited, trace := s.trace ++ [⟨url, FetchKind.links⟩] } :=
        ⟨fun _ h => h, [⟨url, FetchKind.links⟩], rfl,
          by simp [pageFetchUrls], by simp [pageFetchUrls]⟩
      cases web url with
      | none => exact hstep
      | some soup =>
        exact hstep.trans (crawl_loop_step web now today maxDepth
          (Nat.lt_of_not_le hle)
          (fun s' url' => ih (depth + 1) (by omega) s' url') soup.anchors _ url)

theorem site_crawl_step (web : String → Option Soup) (now today : String)
    (maxDepth : Nat) (s : CrawlState) (site : SiteConfig) :
    CrawlStep s (scrape_site_with_microsites web now today maxDepth s site).1 := by
  unfold scrape_site_with_microsites
  cases hres : scrape_url web now today s site.url with
  | mk s₁ main? =>
    have h₁ : CrawlStep s s₁ := by
      have h := scrape_url_step web now today s site.url
      rwa [hres] at h
    cases hmic : scrape_microsites web now today maxDepth s₁ site.url 0 with
    | mk s₂ micro =>
      have h₂ : CrawlStep s₁ s₂ := by
        have h := crawl_micro_step web now today maxDepth maxDepth 0
          (by omega) s₁ site.url
        rwa [hmic] at h
      by_cases hm : site.include_microsites.getD true <;>
        cases main? <;> simp [hres, hmic, hm]
      · exact h₁.trans h₂
      · exact h₁.trans h₂
      · exact h₁
      · exact h₁

def webEmpty : String → Option Soup := fun u =>
  if u = "https://a.org/" then some { anchors := [] } else none

def siteA : SiteConfig := { url := "https://a.org/" }

/-- C2 counterexample: with microsites enabled, the base URL is fetched by
HTTP GET twice within one crawl pass — once by `scrape_url` and once by the
link-discovery GET at the top of `_scrape_microsites`, which is not guarded
by the visited set. -/
theorem base_url_fetched_twice :
    ((scrape_site_with_microsites webEmpty "n" "t" transportMaxDepth {}
        siteA).1.trace.map FetchEvent.url) =
      ["https://a.org/", "https://a.org/"] ∧
    ¬ ((scrape_site_with_microsites webEmpty "n" "t" transportMaxDepth {}
        siteA).1.trace.map FetchEvent.url).Nodup := by
  have h : ((scrape_site_with_microsites webEmpty "n" "t" transportMaxDepth {}
      siteA).1.trace.map FetchEvent.url) =
      ["https://a.org/", "https://a.org/"] := by
    simp [scrape_site_with_microsites, scrape_url, scrape_microsites,
      micrositeLinkLoop, transportMaxDepth, webEmpty, siteA, is_blocked]
  exact ⟨h, by rw [h]; decide⟩

/-- C2 (amended): within a single crawl pass, no URL is fetched more than
once THROUGH `scrape_url`: the visited set guards exactly the `scrape_url`
GETs, so those fetches are pairwise distinct URLs none of which was visited
before the pass.  The link-discovery GET issued at the top of
`_scrape_microsites` bypasses the visited set and can re-fetch a URL (see
the counterexample). -/
theorem scrape_url_fetches_distinct (web : String → Option Soup)
    (now today : String) (maxDepth : Nat) (s : CrawlState) (site : SiteConfig) :
    ∃ Δ, (scrape_site_with_microsites web now today maxDepth s site).1.trace =
        s.trace ++ Δ ∧
      (pageFetchUrls Δ).Nodup ∧ ∀ u ∈ pageFetchUrls Δ, u ∉ s.visited := by
  obtain ⟨hv, Δ, ht, hn, hf⟩ :=
    site_crawl_step web now today maxDepth s site
  exact ⟨Δ, ht, hn, fun u hu => (hf u hu).1⟩

/-- `u` lies at most `k` anchor hops from `seed` in the web graph. -/
inductive ReachableIn (web : String → Option Soup) (seed : String) :
    Nat → String → Prop where
  | refl (k : Nat) : ReachableIn web seed k seed
  | step {k : Nat} {v u : String} {soup : Soup} :
      ReachableIn web seed k v → web v = some soup → u ∈ soup.anchors →
      ReachableIn web seed (k + 1) u

theorem ReachableIn.mono {web : String → Option Soup} {seed : String}
    {k k' : Nat} {u : String} (h : ReachableIn web seed k u) (hk : k ≤ k') :
    ReachableIn web seed k' u := by
  induction h generalizing k' with
  | refl _ => exact .refl k'
  | step hr hw ha ih =>
    cases k' with
    | zero => omega
    | succ k'' => exact .step (ih (by omega)) hw ha

theorem scrape_url_trace_sub (web : String → Option Soup) (now today : String)
    (s : CrawlState) (url u : String) :
    u ∈ ((scrape_url web now today s url).1.trace.map FetchEvent.url) →
      u ∈ s.trace.map FetchEvent.url ∨ u = url := by
  rw [scrape_url_fst]
  by_cases hvis : url ∈ s.visited
  · rw [if_pos hvis]; exact Or.inl
  · rw [if_neg hvis]
    intro hu
    simp only [List.map_append, List.map_cons, List.map_nil,
      List.mem_append, List.mem_cons, List.not_mem_nil, or_false] at hu
    exact hu

theorem crawl_reach_loop (web : String → Option Soup) (now today : String)
    (maxDepth : Nat) (seed : String) {depth : Nat} (hd : depth < maxDepth)
    (ih : ∀ (s : CrawlState) (url : String),
      ReachableIn web seed (depth + 1) url →
      ∀ u, u ∈ ((scrape_microsites web now today maxDepth s url
          (depth + 1)).1.trace.map FetchEvent.url) →
        u ∈ s.trace.map FetchEvent.url ∨ ReachableIn web seed maxDepth u) :
    ∀ (links : List String) (s : CrawlState) (url : String),
      (∀ next ∈ links, ReachableIn web seed (depth + 1) next) →
      ∀ u, u ∈ ((micrositeLinkLoop web now today maxDepth s url depth hd
          links).1.trace.map FetchEvent.url) →
        u ∈ s.trace.map FetchEvent.url ∨ ReachableIn web seed maxDepth u := by
  intro links
  induction links with
  | nil =>
    intro s url _ u hu
    rw [micrositeLinkLoop] at hu
    exact Or.inl hu
  | cons next rest ihl =>
    intro s url hnext u hu
    rw [micrositeLinkLoop] at hu
    by_cases hsc : should_scrape_url next url
    · rw [if_pos hsc] at hu
      cases hres : scrape_url web now today s next with
      | mk s₁ r? =>
        rw [hres] at hu
        have hs₁ : ∀ w, w ∈ s₁.trace.map FetchEvent.url →
            w ∈ s.trace.map FetchEvent.url ∨ ReachableIn web seed maxDepth w := by
          intro w hw
          have h := scrape_url_trace_sub web now today s next w
          rw [hres] at h
          rcases h hw with h' | h'
          · exact Or.inl h'
          · exact Or.inr (h' ▸ (hnext next (List.mem_cons_self _ _)).mono
              (by omega))
        cases r? with
        | some rec =>
          dsimp only at hu
          rcases ihl _ url (fun m hm => hnext m (List.mem_cons_of_mem _ hm))
              u hu with h' | h'
          · rcases ih s₁ next (hnext next (List.mem_cons_self _ _)) u h' with
              h'' | h''
            · exact hs₁ u h''
            · exact Or.inr h''
          · exact Or.inr h'
        | none =>
          dsimp only at hu
          rcases ihl s₁ url (fun m hm => hnext m (List.mem_cons_of_mem _ hm))
              u hu with h' | h'
          · exact hs₁ u h'
          · exact Or.inr h'
    · rw [if_neg hsc] at hu
      exact ihl s url (fun m hm => hnext m (List.mem_cons_of_mem _ hm)) u hu

theorem crawl_reach_micro (web : String → Option Soup) (now today : String)
    (maxDepth : Nat) (seed : String) :
    ∀ (n depth : Nat), maxDepth - depth ≤ n →
      ∀ (s : CrawlState) (url : String), ReachableIn web seed depth url →
      ∀ u, u ∈ ((scrape_microsites web now today maxDepth s url
          depth).1.trace.map FetchEvent.url) →
        u ∈ s.trace.map FetchEvent.url ∨ ReachableIn web seed maxDepth u := by
  intro n
  induction n with
  | zero =>
    intro depth hn s url _ u hu
    rw [scrape_microsites, dif_pos (by omega)] at hu
    exact Or.inl hu
  | succ n ih =>
    intro depth hn s url hr u hu
    rw [scrape_microsites] at hu
    by_cases hle : maxDepth ≤ depth
    · rw [dif_pos hle] at hu
      exact Or.inl hu
    · rw [dif_neg hle] at hu
      have hs' : ∀ w, w ∈ (s.trace ++ [FetchEvent.mk url FetchKind.links]).map FetchEvent.url →
          w ∈ s.trace.map FetchEvent.url ∨ ReachableIn web seed maxDepth w := by
        intro w hw
        simp only [List.map_append, List.map_cons, List.map_nil,
          List.mem_append, List.mem_cons, List.not_mem_nil, or_false] at hw
        rcases hw with h' | h'
        · exact Or.inl h'
        · exact Or.inr (h' ▸ hr.mono (by omega))
      cases hw : web url with
      | none =>
        rw [hw] at hu
        exact hs' u hu
      | some soup =>
        rw [hw] at hu
        have hnext : ∀ next ∈ soup.anchors,
            ReachableIn web seed (depth + 1) next :=
          fun next hn' => .step hr hw hn'
        rcases crawl_reach_loop web now today maxDepth seed
            (Nat.lt_of_not_le hle)
            (fun s' url' hr' => ih (depth + 1) (by omega) s' url' hr')
            soup.anchors _ url hnext u hu with h' | h'
        · exact hs' u h'
        · exact Or.inr h'

/-- C7: with `max_depth = 2`, every URL fetched during a crawl pass started
with a fresh state is reachable from the seed URL by a chain of at most 2
anchor hops; the recursion stops at the depth bound and the depth counter is
passed explicitly to each recursive call. -/
theorem fetched_urls_within_depth (web : String → Option Soup)
    (now today : String) (site : SiteConfig) (u : String) :
    u ∈ ((scrape_site_with_microsites web now today transportMaxDepth {}
        site).1.trace.map FetchEvent.url) →
      ReachableIn web site.url transportMaxDepth u := by
  unfold scrape_site_with_microsites
  cases hres : scrape_url web now today ({} : CrawlState) site.url with
  | mk s₁ main? =>
    cases hmic : scrape_microsites web now today transportMaxDepth s₁
        site.url 0 with
    | mk s₂ micro =>
      have hs₁ : ∀ w, w ∈ s₁.trace.map FetchEvent.url →
          ReachableIn web site.url transportMaxDepth w := by
        intro w hw
        have h := scrape_url_trace_sub web now today ({} : CrawlState)
          site.url w
        rw [hres] at h
        rcases h hw with h' | h'
        · simp at h'
        · exact h' ▸ .refl transportMaxDepth
      have hs₂ : ∀ w, w ∈ s₂.trace.map FetchEvent.url →
          ReachableIn web site.url transportMaxDepth w := by
        intro w hw
        have h := crawl_reach_micro web now today transportMaxDepth site.url
          transportMaxDepth 0 (by omega) s₁ site.url (.refl 0) w
        rw [hmic] at h
        rcases h hw with h' | h'
        · exact hs₁ w h'
        · exact h'
      by_cases hm : site.include_microsites.getD true <;>
        cases main? <;>
        simp only [hres, hmic, hm, if_true, if_false, reduceIte,
          Bool.not_eq_true] <;>
        first
        | exact hs₂ u
        | exact hs₁ u

/-- Closed instance of C7: the base URL itself is fetched and is reachable
in 0 ≤ 2 hops. -/
theorem fetched_urls_within_depth_witness :
    ReachableIn webEmpty siteA.url transportMaxDepth "https://a.org/" :=
  fetched_urls_within_depth webEmpty "n" "t" siteA "https://a.org/"
    (by simp [scrape_site_with_microsites, scrape_url, scrape_microsites,
      micrositeLinkLoop, transportMaxDepth, webEmpty, siteA, is_blocked])

end AGC

